import Mathlib

set_option maxRecDepth 16384

/-!
Verification development for the ai-tutor-mvp language-quiz application.

The server route (src/app/api/questions/route.ts) and the client quiz
component (src/unnamed/part_001) are shallowly embedded below:

* JavaScript strings are `String` / `List Char`; `JSON.parse` is modelled by
  an executable fuel-based JSON parser producing `JVal` values (fuel is an
  upper bound on recursion depth, always sufficient for the given input, so
  it does not change behaviour).
* `Math.random()`-driven shuffles are modelled by threading an explicit
  stream of natural numbers: step `i` of the Fisher-Yates loop uses the next
  stream value modulo `i + 1`, so every run of the JavaScript code
  corresponds to some stream and vice versa.
* JSON numbers keep their source lexeme.  The sanitizer only ever coerces
  numbers to strings inside option lists (`String(o)`), where the lexeme
  agrees with JavaScript's rendering for the plain integer literals that
  occur in practice; no theorem below depends on the rendering of
  non-integer number lexemes.
* JavaScript `toLowerCase` is modelled on ASCII letters, and `\s` as the
  ASCII whitespace characters (space, tab, LF, CR, FF, VT); the claims and
  their concrete inputs stay inside this fragment.
-/

/-! ## JavaScript-style character and string helpers -/

/-- Characters matched by the JavaScript regex class `\s` (ASCII fragment). -/
def jsWs (c : Char) : Bool :=
  c = ' ' ∨ c = '\t' ∨ c = '\n' ∨ c = '\r' ∨ c = Char.ofNat 12 ∨ c = Char.ofNat 11

/-- Whitespace accepted between JSON tokens (RFC 8259: space, tab, LF, CR). -/
def jsonWs (c : Char) : Bool :=
  c = ' ' ∨ c = '\t' ∨ c = '\n' ∨ c = '\r'

/-- Drop leading JSON whitespace. -/
def dropJWs (cs : List Char) : List Char := cs.dropWhile jsonWs

/-- JavaScript `String.prototype.trim` on a character list. -/
def jsTrimL (cs : List Char) : List Char :=
  ((cs.dropWhile jsWs).reverse.dropWhile jsWs).reverse

/-- JavaScript `String.prototype.trim`. -/
def jsTrim (s : String) : String := String.mk (jsTrimL s.data)

/-- ASCII lower-casing, modelling `String.prototype.toLowerCase` on the
ASCII fragment used by the quiz data. -/
def lowerAscii (c : Char) : Char :=
  if 'A' ≤ c ∧ c ≤ 'Z' then Char.ofNat (c.toNat + 32) else c

/-! ## JSON values and `JSON.parse` -/

/-- Parsed JSON values.  Numbers keep their source lexeme (see header note). -/
inductive JVal where
  | null
  | bool (b : Bool)
  | num (lex : String)
  | str (s : String)
  | arr (elems : List JVal)
  | obj (fields : List (String × JVal))

/-- Hexadecimal digit value, for `\uXXXX` escapes. -/
def hexDigitVal (c : Char) : Option Nat :=
  if '0' ≤ c ∧ c ≤ '9' then some (c.toNat - '0'.toNat)
  else if 'a' ≤ c ∧ c ≤ 'f' then some (c.toNat - 'a'.toNat + 10)
  else if 'A' ≤ c ∧ c ≤ 'F' then some (c.toNat - 'A'.toNat + 10)
  else none

/-- Parse the body of a JSON string literal (after the opening quote),
returning the decoded characters and the remaining input. -/
def parseStrBody : List Char → Option (List Char × List Char)
  | [] => none
  | c :: rest =>
    if c = '"' then some ([], rest)
    else if c = '\\' then
      match rest with
      | [] => none
      | e :: r =>
        let simple : Option Char :=
          if e = '"' then some '"'
          else if e = '\\' then some '\\'
          else if e = '/' then some '/'
          else if e = 'b' then some (Char.ofNat 8)
          else if e = 'f' then some (Char.ofNat 12)
          else if e = 'n' then some '\n'
          else if e = 'r' then some '\r'
          else if e = 't' then some '\t'
          else none
        match simple with
        | some ch =>
          match parseStrBody r with
          | some (s, r2) => some (ch :: s, r2)
          | none => none
        | none =>
          if e = 'u' then
            match r with
            | h1 :: h2 :: h3 :: h4 :: r2 =>
              match hexDigitVal h1, hexDigitVal h2, hexDigitVal h3, hexDigitVal h4 with
              | some a, some b, some c3, some d =>
                match parseStrBody r2 with
                | some (s, r3) =>
                  some (Char.ofNat (((a * 16 + b) * 16 + c3) * 16 + d) :: s, r3)
                | none => none
              | _, _, _, _ => none
            | _ => none
          else none
    else if c.toNat < 32 then none
    else
      match parseStrBody rest with
      | some (s, r2) => some (c :: s, r2)
      | none => none

def isDigitCh (c : Char) : Bool := '0' ≤ c ∧ c ≤ '9'

/-- Parse a JSON number, returning its lexeme and the remaining input. -/
def parseNumLex (cs : List Char) : Option (List Char × List Char) :=
  let (sign, r0) : List Char × List Char :=
    match cs with
    | '-' :: r => (['-'], r)
    | _ => ([], cs)
  let intPart : Option (List Char × List Char) :=
    match r0 with
    | '0' :: r => some (['0'], r)
    | c :: _ =>
      if isDigitCh c ∧ c ≠ '0' then
        some (r0.takeWhile isDigitCh, r0.dropWhile isDigitCh)
      else none
    | [] => none
  match intPart with
  | none => none
  | some (ip, r1) =>
    let (fracPart, r2) : List Char × List Char :=
      match r1 with
      | '.' :: r =>
        if (r.takeWhile isDigitCh).isEmpty then ([], r1)
        else ('.' :: r.takeWhile isDigitCh, r.dropWhile isDigitCh)
      | _ => ([], r1)
    let expPart : Option (List Char × List Char) :=
      match r2 with
      | c :: r =>
        if c = 'e' ∨ c = 'E' then
          let (es, r3) : List Char × List Char :=
            match r with
            | '+' :: rr => (['+'], rr)
            | '-' :: rr => (['-'], rr)
            | _ => ([], r)
          if (r3.takeWhile isDigitCh).isEmpty then none
          else some (c :: es ++ r3.takeWhile isDigitCh, r3.dropWhile isDigitCh)
        else some ([], r2)
      | [] => some ([], r2)
    match expPart with
    | none => none
    | some (ep, r4) => some (sign ++ ip ++ fracPart ++ ep, r4)

mutual

/-- Parse one JSON value.  `fuel` bounds recursion depth and is always
sufficient when instantiated with twice the input length. -/
def parseVal : Nat → List Char → Option (JVal × List Char)
  | 0, _ => none
  | fuel + 1, cs =>
    match dropJWs cs with
    | 'n' :: 'u' :: 'l' :: 'l' :: rest => some (.null, rest)
    | 't' :: 'r' :: 'u' :: 'e' :: rest => some (.bool true, rest)
    | 'f' :: 'a' :: 'l' :: 's' :: 'e' :: rest => some (.bool false, rest)
    | '"' :: rest =>
      match parseStrBody rest with
      | some (s, r) => some (.str (String.mk s), r)
      | none => none
    | '[' :: rest =>
      (match dropJWs rest with
       | ']' :: r => some (.arr [], r)
       | other =>
         match parseElems fuel other with
         | some (vs, r) => some (.arr vs, r)
         | none => none)
    | '\x7b' :: rest =>
      (match dropJWs rest with
       | '\x7d' :: r => some (.obj [], r)
       | other =>
         match parseMembers fuel other with
         | some (ms, r) => some (.obj ms, r)
         | none => none)
    | other =>
      match parseNumLex other with
      | some (lex, r) => some (.num (String.mk lex), r)
      | none => none

/-- Parse the elements of a non-empty JSON array, up to and including the
closing bracket. -/
def parseElems : Nat → List Char → Option (List JVal × List Char)
  | 0, _ => none
  | fuel + 1, cs =>
    match parseVal fuel cs with
    | none => none
    | some (v, r) =>
      match dropJWs r with
      | ',' :: r2 =>
        (match parseElems fuel r2 with
         | some (vs, r3) => some (v :: vs, r3)
         | none => none)
      | ']' :: r2 => some ([v], r2)
      | _ => none

/-- Parse the members of a non-empty JSON object, up to and including the
closing brace. -/
def parseMembers : Nat → List Char → Option (List (String × JVal) × List Char)
  | 0, _ => none
  | fuel + 1, cs =>
    match dropJWs cs with
    | '"' :: r =>
      (match parseStrBody r with
       | none => none
       | some (k, r2) =>
         match dropJWs r2 with
         | ':' :: r3 =>
           (match parseVal fuel r3 with
            | none => none
            | some (v, r4) =>
              match dropJWs r4 with
              | ',' :: r5 =>
                (match parseMembers fuel r5 with
                 | some (ms, r6) => some ((String.mk k, v) :: ms, r6)
                 | none => none)
              | '\x7d' :: r5 => some ([(String.mk k, v)], r5)
              | _ => none)
         | _ => none)
    | _ => none

end

/-- `JSON.parse`: parse a complete JSON document, rejecting trailing text. -/
def jsonParse (s : String) : Option JVal :=
  match parseVal (2 * s.data.length + 8) s.data with
  | some (v, rest) => if (dropJWs rest).isEmpty then some v else none
  | none => none

/-! ## Response sanitizer (src/app/api/questions/route.ts, lines 270-406) -/

/-- One step of the global regex scan: does the input start with a
code-fence opener followed by (case-insensitive) `json`? -/
def fenceJsonHead (cs : List Char) : Option (List Char) :=
  match cs with
  | b1 :: b2 :: b3 :: c1 :: c2 :: c3 :: c4 :: rest =>
    if b1 = Char.ofNat 96 ∧ b2 = Char.ofNat 96 ∧ b3 = Char.ofNat 96 ∧
        lowerAscii c1 = 'j' ∧ lowerAscii c2 = 's' ∧ lowerAscii c3 = 'o' ∧
        lowerAscii c4 = 'n' then
      some rest
    else none
  | _ => none

/-- Does the input start with a bare code fence? -/
def fenceHead (cs : List Char) : Option (List Char) :=
  match cs with
  | b1 :: b2 :: b3 :: rest =>
    if b1 = Char.ofNat 96 ∧ b2 = Char.ofNat 96 ∧ b3 = Char.ofNat 96 then some rest
    else none
  | _ => none

/-- `rawText.replace(/```json\s*/gi, '')`: left-to-right global scan,
deleting each match together with its trailing whitespace run. -/
def stripFenceJson : Nat → List Char → List Char
  | 0, cs => cs
  | _, [] => []
  | fuel + 1, c :: rest =>
    match fenceJsonHead (c :: rest) with
    | some after => stripFenceJson fuel (after.dropWhile jsWs)
    | none => c :: stripFenceJson fuel rest

/-- `.replace(/```\s*/g, '')`. -/
def stripFenceBare : Nat → List Char → List Char
  | 0, cs => cs
  | _, [] => []
  | fuel + 1, c :: rest =>
    match fenceHead (c :: rest) with
    | some after => stripFenceBare fuel (after.dropWhile jsWs)
    | none => c :: stripFenceBare fuel rest

/-- Index of the last occurrence of `c`, like `String.prototype.lastIndexOf`. -/
def lastIdxOf (c : Char) (cs : List Char) : Option Nat :=
  match cs.reverse.findIdx? (· = c) with
  | some i => some (cs.length - 1 - i)
  | none => none

/-- Lines 274-287 of route.ts: strip markdown fences, trim, and keep only
the span from the first `[` to the last `]`. -/
def prepContent (rawText : String) : String :=
  let cs := rawText.data
  let cs := stripFenceBare cs.length (stripFenceJson cs.length cs)
  let cs := jsTrimL cs
  let cs :=
    match cs.findIdx? (· = '[') with
    | some i => if 0 < i then cs.drop i else cs
    | none => cs
  let cs :=
    match lastIdxOf ']' cs with
    | some k => if k < cs.length - 1 then cs.take (k + 1) else cs
    | none => cs
  String.mk cs

mutual

/-- JavaScript `String(v)` on a parsed JSON value. -/
def jsToString : JVal → String
  | .null => "null"
  | .bool true => "true"
  | .bool false => "false"
  | .num lex => lex
  | .str s => s
  | .arr l => String.intercalate "," (jsToStringElems l)
  | .obj _ => "[object Object]"

/-- `Array.prototype.toString` renders `null` elements as the empty string. -/
def jsToStringElems : List JVal → List String
  | [] => []
  | .null :: rest => "" :: jsToStringElems rest
  | v :: rest => jsToString v :: jsToStringElems rest

end

/-- JavaScript property access `obj.key` on a parsed JSON value: only
objects expose fields, with later duplicate keys overriding earlier ones. -/
def getField : JVal → String → Option JVal
  | .obj kvs, k => (kvs.reverse.find? (fun p => p.1 = k)).map (·.2)
  | _, _ => none

/-- Swap two positions of a list (the JS destructuring swap
`[copy[i], copy[j]] = [copy[j], copy[i]]`); out-of-range indices leave the
list unchanged (they cannot occur in the Fisher-Yates loop). -/
def swapIdx (l : List α) (i j : Nat) : List α :=
  match l.get? i, l.get? j with
  | some a, some b => (l.set i b).set j a
  | _, _ => l

/-- The Fisher-Yates loop of `shuffle`, from index `i` down to 1; each step
draws `j = js.head % (i + 1)`, covering exactly the range of
`Math.floor(Math.random() * (i + 1))`. -/
def shuffleGo (js : List Nat) : Nat → List α → List α
  | 0, l => l
  | i + 1, l => shuffleGo js.tail i (swapIdx l (i + 1) (js.headD 0 % (i + 2)))

/-- `shuffle` (route.ts lines 399-406 and the identical copy in the client):
copies the array and runs the Fisher-Yates loop.  The randomness stream `js`
stands for the successive `Math.random()` draws. -/
def shuffle (js : List Nat) (l : List α) : List α :=
  shuffleGo js (l.length - 1) l

/-- First-occurrence deduplication, the semantics of
`Array.from(new Set(xs))` for strings. -/
def dedupKeepFirst (seen : List String) : List String → List String
  | [] => []
  | x :: xs =>
    if x ∈ seen then dedupKeepFirst seen xs
    else x :: dedupKeepFirst (x :: seen) xs

/-- Sanitizer question types. -/
inductive QType where
  | multipleChoice
  | typeAnswer
  | fillInTheBlanks
deriving DecidableEq

/-- Sanitizer translation directions. -/
inductive Direction where
  | enToTarget
  | targetToEn
  | targetToTarget
deriving DecidableEq

/-- Sanitizer question languages. -/
inductive QLang where
  | en
  | target
deriving DecidableEq

/-- The `Question` record produced by the sanitizer (route.ts lines 6-14). -/
structure Question where
  question : String
  answer : String
  options : Option (List String)
  direction : Direction
  type : QType
  questionLanguage : QLang
  explanation : String
deriving DecidableEq

/-- Option-list cap: 4 for fill-in-the-blanks, 5 otherwise (route.ts 356). -/
def optionCap (t : QType) : Nat := if t = .fillInTheBlanks then 4 else 5

/-- Route.ts lines 347-354: coerce every option to a trimmed string, drop
blanks, and append the answer when it is missing. -/
def baseOpts (aText : String) (rawOptions : List JVal) : List String :=
  let base := (rawOptions.map (fun o => jsTrim (jsToString o))).filter
    (fun o => ¬ o.isEmpty)
  if aText ∈ base then base else base ++ [aText]

/-- Route.ts line 355: `Array.from(new Set(baseOptions))`. -/
def uniqueOpts (aText : String) (rawOptions : List JVal) : List String :=
  dedupKeepFirst [] (baseOpts aText rawOptions)

/-- Route.ts lines 344-363: coerce options to trimmed strings, drop blanks,
append the answer if missing, deduplicate, shuffle, and truncate
(`shuffle(unique).slice(0, Math.min(unique.length, maxOptions))`). -/
def sanitizeOptions (aText : String) (rawOptions : List JVal) (cap : Nat)
    (js : List Nat) : List String :=
  let unique := uniqueOpts aText rawOptions
  (shuffle js unique).take (min unique.length cap)

/-- Route.ts lines 365-374: explanation text with per-type generic default. -/
def explanationOf (item : JVal) (t : QType) : String :=
  let explanationText :=
    match getField item "explanation" with
    | some (.str s) => jsTrim s
    | _ => ""
  if explanationText.isEmpty then
    if t = .fillInTheBlanks then
      "The correct option best completes the sentence naturally in the target language."
    else
      "The correct answer best matches the intended meaning and natural usage in this context."
  else explanationText

/-- Helper to assemble a `Question` record. -/
def mkQuestion (q a : String) (opts : Option (List String)) (d : Direction)
    (t : QType) (ql : QLang) (e : String) : Question :=
  ⟨q, a, opts, d, t, ql, e⟩

/-- Route.ts lines 308-311: the trimmed `question` text, `""` when absent,
not a string, or blank. -/
def itemQText (item : JVal) : String :=
  match getField item "question" with
  | some (.str s) => if (jsTrim s).isEmpty then "" else jsTrim s
  | _ => ""

/-- Route.ts lines 312-315: the trimmed `answer` text, `""` likewise. -/
def itemAText (item : JVal) : String :=
  match getField item "answer" with
  | some (.str s) => if (jsTrim s).isEmpty then "" else jsTrim s
  | _ => ""

/-- Route.ts lines 322-327: `direction`, defaulting to `en-to-target`. -/
def itemDirection (item : JVal) : Direction :=
  match getField item "direction" with
  | some (.str s) =>
    if s = "target-to-en" then .targetToEn
    else if s = "target-to-target" then .targetToTarget
    else .enToTarget
  | _ => .enToTarget

/-- Route.ts lines 329-330: `questionLanguage`, defaulting to `en`. -/
def itemQLang (item : JVal) : QLang :=
  match getField item "questionLanguage" with
  | some (.str s) => if s = "target" then .target else .en
  | _ => .en

/-- The `options` field when it is an array (`Array.isArray(raw.options)`). -/
def itemOptsArr (item : JVal) : Option (List JVal) :=
  match getField item "options" with
  | some (.arr l) => some l
  | _ => none

/-- Route.ts line 332: `Array.isArray(raw.options) && raw.options.length > 0`. -/
def itemHasOptions (item : JVal) : Bool :=
  match itemOptsArr item with
  | some l => ¬ l.isEmpty
  | none => false

/-- Is the `type` field the given string tag (strict `===` comparison)? -/
def itemTypeTag (item : JVal) (tag : String) : Bool :=
  match getField item "type" with
  | some (.str s) => s = tag
  | _ => false

/-- Route.ts lines 335-342: the question type.  An explicit
`fill-in-the-blanks` tag wins; else an explicit `type-answer` tag or the
absence of non-empty options gives `type-answer`; else `multiple-choice`. -/
def itemType (item : JVal) : QType :=
  if itemTypeTag item "fill-in-the-blanks" then .fillInTheBlanks
  else if itemTypeTag item "type-answer" ∨ ¬ itemHasOptions item then .typeAnswer
  else .multipleChoice

/-- Field validation and normalization for one object-like element
(route.ts lines 308-389). -/
def processItemFields (item : JVal) (js : List Nat) : Option Question :=
  if (itemQText item).isEmpty ∨ (itemAText item).isEmpty then none
  else
    let type := itemType item
    if type = .multipleChoice ∨ type = .fillInTheBlanks then
      let l := sanitizeOptions (itemAText item) ((itemOptsArr item).getD [])
        (optionCap type) js
      if l.length < 2 then none
      else some (mkQuestion (itemQText item) (itemAText item) (some l)
        (itemDirection item) type (itemQLang item) (explanationOf item type))
    else
      some (mkQuestion (itemQText item) (itemAText item) none
        (itemDirection item) type (itemQLang item) (explanationOf item type))

/-- Route.ts lines 304-389: process one element of the parsed array into a
validated `Question`, or skip it (`none`).  `js` is this item's shuffle
randomness.  The guard mirrors `if (!item || typeof item !== 'object')`:
only objects and arrays pass (arrays expose no fields, so they are then
skipped for a missing `question`). -/
def processItem (item : JVal) (js : List Nat) : Option Question :=
  match item with
  | .obj _ => processItemFields item js
  | .arr _ => processItemFields item js
  | _ => none

/-- The collection loop of route.ts lines 302-389: process items in order,
skipping invalid ones, and stop as soon as `count` questions were pushed.
`rands` supplies each element's shuffle randomness positionally. -/
def collectLoop (count : Nat) : List JVal → List (List Nat) → Nat → List Question
  | [], _, _ => []
  | it :: rest, rands, got =>
    match processItem it (rands.headD []) with
    | none => collectLoop count rest rands.tail got
    | some q =>
      if count ≤ got + 1 then [q]
      else q :: collectLoop count rest rands.tail (got + 1)

/-- Failures of `parseQuestionsFromText`, by thrown error message. -/
inductive SanitizeError where
  | malformedJSON      -- 'AI returned invalid JSON. Please retry this skill band.'
  | notAnArray         -- 'AI response is not a valid array of questions.'
  | noUsableQuestions  -- 'No valid questions could be extracted from AI response'
deriving DecidableEq

/-- `parseQuestionsFromText` (route.ts lines 270-398): the response
sanitizer.  `rands` supplies the shuffle randomness per array element. -/
def parseQuestionsFromText (rawText : String) (count : Nat)
    (rands : List (List Nat)) : Except SanitizeError (List Question) :=
  match jsonParse (prepContent rawText) with
  | none => .error .malformedJSON
  | some (.arr items) =>
    let qs := collectLoop count items rands 0
    if qs.isEmpty then .error .noUsableQuestions else .ok qs
  | some _ => .error .notAnArray

/-! ## POST handler validation (route.ts lines 481-508) -/

/-- A JSON number lexeme denotes zero iff every mantissa digit is `0`. -/
def numLexIsZero (lex : String) : Bool :=
  (lex.data.takeWhile (fun c => c ≠ 'e' ∧ c ≠ 'E')).all
    (fun c => c = '0' ∨ c = '-' ∨ c = '.')

/-- JavaScript truthiness test (`!v`) on an optional JSON field
(`none` models `undefined`).  A number is falsy when it denotes zero. -/
def jsFalsyField : Option JVal → Bool
  | none => true
  | some .null => true
  | some (.bool b) => ¬ b
  | some (.str s) => s.isEmpty
  | some (.num lex) => numLexIsZero lex
  | some (.arr _) => false
  | some (.obj _) => false

/-- Optional exponent suffix, consuming the whole input. -/
def expTail : List Char → Bool
  | [] => true
  | c :: r =>
    if c = 'e' ∨ c = 'E' then
      let r2 : List Char :=
        match r with
        | '+' :: rr => rr
        | '-' :: rr => rr
        | _ => r
      ¬ r2.isEmpty ∧ r2.all isDigitCh
    else false

/-- Unsigned decimal literal or `Infinity`, consuming the whole input. -/
def decimalOrInf (cs : List Char) : Bool :=
  if cs = "Infinity".data then true
  else
    let intD := cs.takeWhile isDigitCh
    let r1 := cs.dropWhile isDigitCh
    match r1 with
    | '.' :: r2 =>
      let fracD := r2.takeWhile isDigitCh
      if intD.isEmpty ∧ fracD.isEmpty then false
      else expTail (r2.dropWhile isDigitCh)
    | _ => ¬ intD.isEmpty ∧ expTail r1

/-- `!isNaN(Number(s))` for a JavaScript string: the empty/whitespace string
coerces to 0; otherwise a decimal literal (optionally signed, with optional
fraction and exponent), `Infinity`, or an unsigned hex/octal/binary literal. -/
def strIsNumericJS (s : String) : Bool :=
  let cs := jsTrimL s.data
  match cs with
  | [] => true
  | '0' :: x :: rest =>
    if x = 'x' ∨ x = 'X' then ¬ rest.isEmpty ∧ rest.all (fun c => (hexDigitVal c).isSome)
    else if x = 'o' ∨ x = 'O' then ¬ rest.isEmpty ∧ rest.all (fun c => '0' ≤ c ∧ c ≤ '7')
    else if x = 'b' ∨ x = 'B' then ¬ rest.isEmpty ∧ rest.all (fun c => c = '0' ∨ c = '1')
    else decimalOrInf cs
  | '+' :: rest => decimalOrInf rest
  | '-' :: rest => decimalOrInf rest
  | _ => decimalOrInf cs

/-- A request-body number after the `typeof`-driven coercion chain. -/
inductive Coerced where
  | nan
  | fromNumber (lex : String)
  | fromString (lex : String)
  | defaulted
deriving DecidableEq

/-- `band`: a number stays a number, a string goes through `Number(...)`,
anything else (including a missing field) is `NaN`. -/
def coerceBandV : Option JVal → Coerced
  | some (.num lex) => .fromNumber lex
  | some (.str s) => if strIsNumericJS s then .fromString s else .nan
  | _ => .nan

/-- `count`: like `band`, except that a missing or non-number/non-string
value defaults to `6` instead of `NaN`. -/
def coerceCountV : Option JVal → Coerced
  | some (.num lex) => .fromNumber lex
  | some (.str s) => if strIsNumericJS s then .fromString s else .nan
  | _ => .defaulted

/-- Outcome of the parameter validation in `POST`. -/
inductive PostDecision where
  | badRequest
  | proceed (language level : JVal) (band count : Coerced)

/-- Discriminator: did validation produce the HTTP 400 response? -/
def PostDecision.isBad : PostDecision → Bool
  | .badRequest => true
  | .proceed _ _ _ _ => false

/-- Route.ts lines 483-508: extract and validate the request parameters;
`badRequest` is the HTTP 400 response `{ error }`. -/
def postValidate (body : JVal) : PostDecision :=
  let language := getField body "language"
  let level := getField body "level"
  let band := coerceBandV (getField body "band")
  let count := coerceCountV (getField body "count")
  if jsFalsyField language ∨ jsFalsyField level ∨ band = .nan ∨ count = .nan then
    .badRequest
  else
    .proceed (language.getD .null) (level.getD .null) band count

/-! ## Provider client retry structure (route.ts lines 408-479) -/

/-- Observable outcome of one `fetch` to the provider. -/
inductive GroqOutcome where
  | httpErr (status : Nat)
  | ok (content : String)

/-- Errors thrown by `generateWithGroq`, by thrown error message. -/
inductive GroqError where
  | missingKey          -- 'GROQ_API_KEY is not set in environment variables'
  | httpError (status : Nat)  -- 'Groq API error: HTTP <status>'
  | emptyModelOutput    -- 'Groq returned empty response'
  | sanitize (e : SanitizeError)
  | streamEnded         -- model artifact: ran out of scripted outcomes
deriving DecidableEq

/-- `error.message.includes('JSON')` holds exactly for the malformed-JSON
sanitizer message among all messages thrown in this route. -/
def errMsgHasJSON : GroqError → Bool
  | .sanitize .malformedJSON => true
  | _ => false

/-- `generateWithGroq` (route.ts lines 408-479), driven by a script of
provider outcomes.  Each frame does one fetch; on HTTP 429/503 with
`rc < 2` it recurses inside the `try` block, so an error propagating out of
that recursion is caught again by this frame's `catch`, which retries once
more when the message contains 'JSON' and `rc < 2`.  Returns the result
together with the number of provider calls consumed.  `fuel` bounds the
(finite) recursion tree and is never exhausted for `fuel = 32`. -/
def groqGo (count : Nat) : Nat → List GroqOutcome → List (List (List Nat)) →
    Nat → Except GroqError (List Question) × Nat
  | 0, _, _, _ => (.error .streamEnded, 0)
  | _ + 1, [], _, _ => (.error .streamEnded, 0)
  | fuel + 1, o :: rest, rands, rc =>
    match o with
    | .httpErr status =>
      if (status = 429 ∨ status = 503) ∧ rc < 2 then
        match groqGo count fuel rest rands.tail (rc + 1) with
        | (.ok qs, n) => (.ok qs, n + 1)
        | (.error e, n) =>
          if rc < 2 ∧ errMsgHasJSON e then
            let r2 := groqGo count fuel (rest.drop n) (rands.drop (n + 1)) (rc + 1)
            (r2.1, r2.2 + n + 1)
          else (.error e, n + 1)
      else (.error (.httpError status), 1)
    | .ok content =>
      let rawText := jsTrim content
      if rawText.isEmpty then (.error .emptyModelOutput, 1)
      else
        match parseQuestionsFromText rawText count (rands.headD []) with
        | .ok qs => (.ok qs, 1)
        | .error e =>
          if rc < 2 ∧ errMsgHasJSON (.sanitize e) then
            let r2 := groqGo count fuel rest rands.tail (rc + 1)
            (r2.1, r2.2 + 1)
          else (.error (.sanitize e), 1)

/-- Entry point: `generateWithGroq(instruction, count)` with the default
`retryCount = 0`, including the API-key check that precedes the `try`. -/
def generateWithGroq (hasApiKey : Bool) (count : Nat)
    (outcomes : List GroqOutcome) (rands : List (List (List Nat))) :
    Except GroqError (List Question) × Nat :=
  if hasApiKey then groqGo count 32 outcomes rands 0
  else (.error .missingKey, 0)

/-! ## Client quiz state machine (src/unnamed/part_001) -/

/-- Collapse every run of `\s` characters into a single space
(`.replace(/\s+/g, ' ')`).  `prevWs` records whether the previous character
belonged to a run already replaced. -/
def collapseWsAux (prevWs : Bool) : List Char → List Char
  | [] => []
  | c :: rest =>
    if jsWs c then
      if prevWs then collapseWsAux true rest
      else ' ' :: collapseWsAux true rest
    else c :: collapseWsAux false rest

/-- Is `c` one of the punctuation characters in the class `[.,!?;:]`? -/
def isQuizPunct (c : Char) : Bool :=
  c = '.' ∨ c = ',' ∨ c = '!' ∨ c = '?' ∨ c = ';' ∨ c = ':'

/-- `normalize` (part_001 lines 99-104): lower-case, trim, strip the
punctuation class `[.,!?;:]`, collapse whitespace runs to single spaces.
(Named `normalizeAnswer` here because Mathlib already uses `normalize`.) -/
def normalizeAnswer (s : String) : String :=
  String.mk (collapseWsAux false
    ((jsTrimL (s.data.map lowerAscii)).filter (fun c => ¬ isQuizPunct c)))

/-- Client screens (part_001 line 5). -/
inductive Screen where
  | welcome
  | language
  | level
  | band
  | quiz
  | report
deriving DecidableEq

/-- Supported levels. -/
inductive CLevel where
  | basic
  | moderate
  | advanced
deriving DecidableEq

/-- Supported target languages. -/
inductive CLanguage where
  | french
  | german
  | spanish
  | italian
deriving DecidableEq

/-- `AnswerRecord` (part_001 lines 19-25). -/
structure AnswerRecord where
  question : String
  userAnswer : String
  correctAnswer : String
  correct : Bool
  explanation : Option String
deriving DecidableEq

/-- One entry of `sessionReports` (part_001 lines 130-139). -/
structure BandReport where
  band : Nat
  level : Option CLevel
  language : Option CLanguage
  answers : List AnswerRecord
  score : Nat
  total : Nat
deriving DecidableEq

/-- The component state of `LanguageTutorApp` (the `useState` hooks). -/
structure ClientState where
  screen : Screen
  selectedLanguage : Option CLanguage
  selectedLevel : Option CLevel
  skillBand : Nat
  questions : List Question
  currentQuestionIndex : Nat
  score : Nat
  answers : List (Option AnswerRecord)
  userAnswer : String
  showResult : Bool
  isCorrect : Bool
  sessionReports : List BandReport
deriving DecidableEq

/-- JavaScript sparse-array assignment `next[i] = v`: pad with holes
(`none`) up to index `i` if needed, then set. -/
def setSparse (l : List (Option AnswerRecord)) (i : Nat) (v : AnswerRecord) :
    List (Option AnswerRecord) :=
  let padded := if l.length ≤ i then l ++ List.replicate (i + 1 - l.length) none else l
  padded.set i (some v)

/-- `handleAnswer` (part_001 lines 258-281). -/
def handleAnswer (st : ClientState) (answer : String) : ClientState :=
  match st.questions.get? st.currentQuestionIndex with
  | none => st
  | some q =>
    let isRight : Bool := normalizeAnswer answer == normalizeAnswer q.answer
    { st with
      isCorrect := isRight
      showResult := true
      answers := setSparse st.answers st.currentQuestionIndex
        ⟨q.question, answer, q.answer, isRight, some q.explanation⟩
      score := if isRight then st.score + 1 else st.score }

/-- The report entry built at the end of a band (part_001 lines 294-303). -/
def bandEntry (st : ClientState) : BandReport :=
  ⟨st.skillBand, st.selectedLevel, st.selectedLanguage,
    st.answers.filterMap id, st.score, st.questions.length⟩

/-- Do two reports concern the same (band, level, language) triple? -/
def sameTriple (r e : BandReport) : Bool :=
  r.band = e.band ∧ r.level = e.level ∧ r.language = e.language

/-- `handleNext` (part_001 lines 283-318). -/
def handleNext (st : ClientState) : ClientState :=
  if st.currentQuestionIndex < st.questions.length - 1 then
    { st with
      currentQuestionIndex := st.currentQuestionIndex + 1
      showResult := false
      isCorrect := false
      userAnswer := "" }
  else
    let entry := bandEntry st
    { st with
      sessionReports :=
        st.sessionReports.filter (fun r => ¬ sameTriple r entry) ++ [entry]
      screen := .report }

/-- `handlePrevious` (part_001 lines 320-329). -/
def handlePrevious (st : ClientState) : ClientState :=
  if st.currentQuestionIndex = 0 then st
  else
    let prevIndex := st.currentQuestionIndex - 1
    { st with
      currentQuestionIndex := prevIndex
      showResult := false
      isCorrect := false
      userAnswer :=
        match st.answers.getD prevIndex none with
        | some rec => if rec.userAnswer.isEmpty then "" else rec.userAnswer
        | none => "" }

/-- `startBand` (part_001 lines 245-256); the question batch arrives later
via a `questionsLoaded` action. -/
def startBand (st : ClientState) (lang : CLanguage) (lvl : CLevel) (band : Nat) :
    ClientState :=
  { st with
    selectedLanguage := some lang
    selectedLevel := some lvl
    skillBand := band
    currentQuestionIndex := 0
    score := 0
    answers := []
    userAnswer := ""
    showResult := false
    isCorrect := false
    screen := .quiz }

/-- `resetSession` (part_001 lines 331-348). -/
def resetSession (st : ClientState) : ClientState :=
  { st with
    screen := .welcome
    selectedLanguage := none
    selectedLevel := none
    skillBand := 1
    currentQuestionIndex := 0
    score := 0
    answers := []
    questions := []
    userAnswer := ""
    showResult := false
    isCorrect := false
    sessionReports := [] }

/-- `resetLanguageFlow` (part_001 lines 376-391). -/
def resetLanguageFlow (st : ClientState) : ClientState :=
  { st with
    screen := .language
    selectedLanguage := none
    selectedLevel := none
    skillBand := 1
    currentQuestionIndex := 0
    score := 0
    answers := []
    questions := []
    userAnswer := ""
    showResult := false
    isCorrect := false
    sessionReports := [] }

/-- `goToLevelSelection` (part_001 lines 360-373): keeps `sessionReports`. -/
def goToLevelSelection (st : ClientState) : ClientState :=
  { st with
    screen := .level
    selectedLevel := none
    skillBand := 1
    currentQuestionIndex := 0
    score := 0
    answers := []
    questions := []
    userAnswer := ""
    showResult := false
    isCorrect := false }

/-- User and network events driving the component. -/
inductive ClientAction where
  | answer (s : String)
  | next
  | previous
  | start (lang : CLanguage) (lvl : CLevel) (band : Nat)
  | questionsLoaded (qs : List Question)
  | fetchFailed
  | reset
  | changeLanguage
  | changeLevel
deriving DecidableEq

/-- Can the quiz screen currently deliver an `answer` click?  The option
buttons and the check-answer button are rendered only on the quiz screen
with a current question and are disabled while `showResult` is true. -/
def canAnswer (st : ClientState) : Bool :=
  st.screen = .quiz ∧ ¬ st.showResult ∧
    (st.questions.get? st.currentQuestionIndex).isSome

/-- Are the next/previous buttons available (quiz screen, question shown)? -/
def canNavigate (st : ClientState) : Bool :=
  st.screen = .quiz ∧ (st.questions.get? st.currentQuestionIndex).isSome

/-- One step of the client state machine: each UI event is guarded exactly
as its button/handler is in the rendered component. -/
def stepAction (st : ClientState) : ClientAction → ClientState
  | .answer s => if canAnswer st then handleAnswer st s else st
  | .next => if canNavigate st then handleNext st else st
  | .previous => if canNavigate st then handlePrevious st else st
  | .start lang lvl band => startBand st lang lvl band
  | .questionsLoaded qs =>
    if st.screen = .quiz then { st with questions := qs } else st
  | .fetchFailed => if st.screen = .quiz then { st with questions := [] } else st
  | .reset => resetSession st
  | .changeLanguage => resetLanguageFlow st
  | .changeLevel => goToLevelSelection st

/-- Run a list of client actions from a state. -/
def runActions (st : ClientState) : List ClientAction → ClientState
  | [] => st
  | a :: rest => runActions (stepAction st a) rest

/-- Shorthand for the option list built for a multiple-choice or
fill-in-the-blanks item. -/
def itemOptions (item : JVal) (js : List Nat) : List String :=
  sanitizeOptions (itemAText item) ((itemOptsArr item).getD [])
    (optionCap (itemType item)) js

/-- The fields of a sanitized question that do not involve the option
list: these are independent of the shuffle randomness. -/
def sameNonOption (q1 q2 : Question) : Prop :=
  q1.question = q2.question ∧ q1.answer = q2.answer ∧
  q1.direction = q2.direction ∧ q1.type = q2.type ∧
  q1.questionLanguage = q2.questionLanguage ∧ q1.explanation = q2.explanation

/-- How the option lists of two runs on the same item relate: equal length
always, and equal as multisets when no truncation happened (length below
the cap). -/
def optsAgree (q1 q2 : Question) : Prop :=
  match q1.options, q2.options with
  | none, none => True
  | some l1, some l2 =>
    l1.length = l2.length ∧ (l1.length < optionCap q1.type → List.Perm l1 l2)
  | _, _ => False

/-- The (band, level, language) triple identifying a `BandReport`. -/
def reportKey (r : BandReport) : Nat × Option CLevel × Option CLanguage :=
  (r.band, r.level, r.language)

/-- The session history holds at most one report per (band, level,
language) triple. -/
def historyOk (l : List BandReport) : Prop := (l.map reportKey).Nodup

/-! ## Concrete inputs used to settle the claims -/

/-- The generic explanation substituted for non-fill-in items. -/
def genericExpl : String :=
  "The correct answer best matches the intended meaning and natural usage in this context."

/-- The generic explanation substituted for fill-in-the-blanks items. -/
def fillExpl : String :=
  "The correct option best completes the sentence naturally in the target language."

/-- The fenced-and-commented raw text of spec section 8. -/
def rawExample8 : String :=
  "Here you go:\n```json\n[\x7b\"question\":\"Hello\",\"answer\":\"Bonjour\",\"options\":[\"Bonjour\",\"Salut\"],\"direction\":\"en-to-target\",\"type\":\"multiple-choice\",\"questionLanguage\":\"en\"\x7d]\n```\nEnjoy!"

/-- The single JSON object inside `rawExample8`. -/
def item8 : JVal :=
  .obj [("question", .str "Hello"), ("answer", .str "Bonjour"),
    ("options", .arr [.str "Bonjour", .str "Salut"]),
    ("direction", .str "en-to-target"), ("type", .str "multiple-choice"),
    ("questionLanguage", .str "en")]

/-- The question produced from `rawExample8` with the empty randomness
stream (the Fisher-Yates step then swaps the two options). -/
def q8 : Question :=
  ⟨"Hello", "Bonjour", some ["Salut", "Bonjour"], .enToTarget, .multipleChoice,
    .en, genericExpl⟩

/-- The question produced from `rawExample8` with randomness `[[1]]` (the
Fisher-Yates step swaps position 1 with itself, keeping the order). -/
def q8b : Question :=
  ⟨"Hello", "Bonjour", some ["Bonjour", "Salut"], .enToTarget, .multipleChoice,
    .en, genericExpl⟩

/-- A fill-in-the-blanks item with four options that do not contain the
answer: the answer is appended as a fifth, above the cap of 4. -/
def rawC1 : String :=
  "[\x7b\"question\":\"Q\",\"answer\":\"E\",\"options\":[\"A\",\"B\",\"C\",\"D\"],\"type\":\"fill-in-the-blanks\"\x7d]"

/-- The output of sanitizing `rawC1` under the identity shuffle
`[4,3,2,1]`: truncation to 4 options drops the answer `"E"`. -/
def qC1bad : Question :=
  ⟨"Q", "E", some ["A", "B", "C", "D"], .enToTarget, .fillInTheBlanks, .en,
    fillExpl⟩

/-- A multiple-choice item with six distinct options including the answer
`"A"`: one option must be dropped by the cap of 5. -/
def rawC5 : String :=
  "[\x7b\"question\":\"Q\",\"answer\":\"A\",\"options\":[\"A\",\"B\",\"C\",\"D\",\"E\",\"F\"]\x7d]"

/-- Sanitizing `rawC5` under the identity shuffle keeps `A`..`E`. -/
def qC5a : Question :=
  ⟨"Q", "A", some ["A", "B", "C", "D", "E"], .enToTarget, .multipleChoice, .en,
    genericExpl⟩

/-- Sanitizing `rawC5` under the all-zero shuffle keeps `B`..`F`. -/
def qC5b : Question :=
  ⟨"Q", "A", some ["B", "C", "D", "E", "F"], .enToTarget, .multipleChoice, .en,
    genericExpl⟩

/-- Claim C5 as stated: runs differing only in shuffle randomness agree on
all non-option fields and have the same multiset of options per item. -/
def claimC5Statement : Prop :=
  ∀ (raw : String) (count : Nat) (r1 r2 : List (List Nat))
    (qs1 qs2 : List Question),
    parseQuestionsFromText raw count r1 = .ok qs1 →
    parseQuestionsFromText raw count r2 = .ok qs2 →
    qs1.length = qs2.length ∧
    ∀ i (h1 : i < qs1.length) (h2 : i < qs2.length),
      sameNonOption (qs1.get ⟨i, h1⟩) (qs2.get ⟨i, h2⟩) ∧
      ∀ l1 l2, (qs1.get ⟨i, h1⟩).options = some l1 →
        (qs2.get ⟨i, h2⟩).options = some l2 → List.Perm l1 l2

/-- An element carrying an explicit `type-answer` tag together with a
non-empty options array. -/
def itemC6 : JVal :=
  .obj [("question", .str "Q"), ("answer", .str "A"),
    ("type", .str "type-answer"), ("options", .arr [.str "A", .str "B"])]

/-- The question the sanitizer produces from `itemC6`. -/
def qC6 : Question :=
  ⟨"Q", "A", none, .enToTarget, .typeAnswer, .en, genericExpl⟩

/-- An element with `options: []` and no `type` field (spec section 8
boundary case). -/
def itemC6w : JVal :=
  .obj [("question", .str "Q"), ("answer", .str "A"), ("options", .arr [])]

/-- The question the sanitizer produces from `itemC6w`. -/
def qC6w : Question :=
  ⟨"Q", "A", none, .enToTarget, .typeAnswer, .en, genericExpl⟩

/-- The type-determination rule exactly as claim C6 words it: fill tag
wins; otherwise non-empty options or an explicit multiple-choice tag give
multiple-choice; otherwise type-answer. -/
def specC6Type (item : JVal) : QType :=
  if itemTypeTag item "fill-in-the-blanks" then .fillInTheBlanks
  else if itemHasOptions item ∨ itemTypeTag item "multiple-choice" then
    .multipleChoice
  else .typeAnswer

/-- Claim C6 as stated: every processed element is typed by `specC6Type`. -/
def claimC6Statement : Prop :=
  ∀ (item : JVal) (js : List Nat) (q : Question),
    processItem item js = some q → q.type = specC6Type item

/-- A request body with valid language, level and band but no `count`. -/
def bodyC2 : JVal :=
  .obj [("language", .str "French"), ("level", .str "Basic"),
    ("band", .num "2")]

/-- The part of claim C2 asserting that a missing `count` is rejected. -/
def claimC2MissingCount : Prop :=
  ∀ body : JVal, getField body "count" = none → postValidate body = .badRequest

/-- Provider response whose body cannot be parsed as JSON. -/
def malContent : String := "not json"

/-- A provider response that sanitizes successfully (for every requested
count and randomness). -/
def goodContent : String := "[\x7b\"question\":\"Q\",\"answer\":\"A\"\x7d]"

/-- The single JSON object inside `goodContent`. -/
def itemGood : JVal := .obj [("question", .str "Q"), ("answer", .str "A")]

/-- The question produced from `goodContent`. -/
def qGood : Question :=
  ⟨"Q", "A", none, .enToTarget, .typeAnswer, .en, genericExpl⟩

/-- Malformed-response provider outcome. -/
def malOut : GroqOutcome := .ok malContent

/-- Well-formed-response provider outcome. -/
def goodOut : GroqOutcome := .ok goodContent

/-- Claim C3's testable content: after a JSON-parsing failure the client
retries exactly once more, so two malformed responses in a row exhaust the
allowance and the error propagates no matter what the provider would
return afterwards. -/
def claimC3Statement : Prop :=
  ∀ (rest : List GroqOutcome) (count : Nat) (rands : List (List (List Nat))),
    (generateWithGroq true count (malOut :: malOut :: rest) rands).1 =
      .error (.sanitize .malformedJSON)

/-- Two type-answer questions for driving the quiz machine. -/
def qT1 : Question := ⟨"Q1", "a", none, .enToTarget, .typeAnswer, .en, "e1"⟩

def qT2 : Question := ⟨"Q2", "b", none, .enToTarget, .typeAnswer, .en, "e2"⟩

/-- A quiz in progress on band 1 with two loaded questions. -/
def stC4 : ClientState :=
  ⟨.quiz, some .french, some .basic, 1, [qT1, qT2], 0, 0, [], "", false,
    false, []⟩

/-- A stored report for (band 1, Basic, French) from an earlier visit. -/
def rptOld : BandReport :=
  ⟨1, some .basic, some .french, [⟨"Q1", "x", "a", false, some "e1"⟩], 0, 1⟩

/-- A quiz at the last (single) question of band 1, with a prior report
for the same (band, level, language) triple in the session history. -/
def stC8 : ClientState :=
  ⟨.quiz, some .french, some .basic, 1, [qT1], 0, 1,
    [some ⟨"Q1", "a", "a", true, some "e1"⟩], "", true, true, [rptOld]⟩

/-- The spec-section-8 answer-checking question: canonical answer
`"Bonjour"`. -/
def qC9 : Question :=
  ⟨"Hello", "Bonjour", none, .enToTarget, .typeAnswer, .en, "e"⟩

/-- A quiz showing `qC9`, ready to accept an answer. -/
def stC9 : ClientState :=
  ⟨.quiz, some .french, some .basic, 1, [qC9], 0, 0, [], "", false, false, []⟩

/-! ## Helper lemmas: shuffle is a permutation -/

theorem getCons_set_perm (x : α) :
    ∀ (xs : List α) (k : Nat) (hk : k < xs.length),
      List.Perm (xs.get ⟨k, hk⟩ :: xs.set k x) (x :: xs)
  | y :: ys, 0, _ => List.Perm.swap x y ys
  | y :: ys, k + 1, hk => by
    have hk' : k < ys.length := Nat.lt_of_succ_lt_succ (by simpa using hk)
    have ih := getCons_set_perm x ys k hk'
    have h1 : List.Perm (ys.get ⟨k, hk'⟩ :: y :: ys.set k x)
        (y :: ys.get ⟨k, hk'⟩ :: ys.set k x) := List.Perm.swap y (ys.get ⟨k, hk'⟩) _
    have h2 : List.Perm (y :: ys.get ⟨k, hk'⟩ :: ys.set k x) (y :: x :: ys) := ih.cons y
    have h3 : List.Perm (y :: x :: ys) (x :: y :: ys) := List.Perm.swap x y ys
    simpa using (h1.trans h2).trans h3

theorem setSet_perm :
    ∀ (l : List α) (i j : Nat) (hi : i < l.length) (hj : j < l.length),
      List.Perm ((l.set i (l.get ⟨j, hj⟩)).set j (l.get ⟨i, hi⟩)) l
  | x :: xs, 0, 0, _, _ => by simp
  | x :: xs, 0, j + 1, hi, hj => by
    have hj' : j < xs.length := Nat.lt_of_succ_lt_succ (by simpa using hj)
    simpa using getCons_set_perm x xs j hj'
  | x :: xs, i + 1, 0, hi, hj => by
    have hi' : i < xs.length := Nat.lt_of_succ_lt_succ (by simpa using hi)
    simpa using getCons_set_perm x xs i hi'
  | x :: xs, i + 1, j + 1, hi, hj => by
    have hi' : i < xs.length := Nat.lt_of_succ_lt_succ (by simpa using hi)
    have hj' : j < xs.length := Nat.lt_of_succ_lt_succ (by simpa using hj)
    simpa using (setSet_perm xs i j hi' hj').cons x

theorem swapIdx_perm (l : List α) (i j : Nat) : List.Perm (swapIdx l i j) l := by
  unfold swapIdx
  cases hi : l.get? i with
  | none => exact .refl l
  | some a =>
    cases hj : l.get? j with
    | none => exact .refl l
    | some b =>
      obtain ⟨hi', ha⟩ := List.get?_eq_some.1 hi
      obtain ⟨hj', hb⟩ := List.get?_eq_some.1 hj
      subst ha
      subst hb
      exact setSet_perm l i j hi' hj'

theorem shuffleGo_perm (i : Nat) :
    ∀ (js : List Nat) (l : List α), List.Perm (shuffleGo js i l) l := by
  induction i with
  | zero => intro js l; exact .refl l
  | succ i ih =>
    intro js l
    exact (ih js.tail _).trans (swapIdx_perm l (i + 1) (js.headD 0 % (i + 2)))

/-- The shuffle returns a permutation of its input, for every randomness. -/
theorem shuffle_perm (js : List Nat) (l : List α) : List.Perm (shuffle js l) l :=
  shuffleGo_perm (l.length - 1) js l

theorem shuffle_length (js : List Nat) (l : List α) :
    (shuffle js l).length = l.length :=
  (shuffle_perm js l).length_eq

theorem mem_shuffle (js : List Nat) (l : List α) (x : α) :
    x ∈ shuffle js l ↔ x ∈ l :=
  (shuffle_perm js l).mem_iff

/-! ## Helper lemmas: option sanitization -/

theorem mem_dedupKeepFirst (x : String) :
    ∀ (l seen : List String), x ∈ dedupKeepFirst seen l ↔ x ∈ l ∧ x ∉ seen
  | [], seen => by simp [dedupKeepFirst]
  | y :: ys, seen => by
    by_cases hy : y ∈ seen
    · rw [dedupKeepFirst, if_pos hy, mem_dedupKeepFirst x ys seen]
      constructor
      · exact fun ⟨h1, h2⟩ => ⟨.tail _ h1, h2⟩
      · rintro ⟨h1, h2⟩
        cases List.mem_cons.1 h1 with
        | inl he => exact absurd (he ▸ hy) h2
        | inr hm => exact ⟨hm, h2⟩
    · rw [dedupKeepFirst, if_neg hy]
      by_cases hxy : x = y
      · subst hxy
        simp [hy]
      · rw [List.mem_cons, List.mem_cons, mem_dedupKeepFirst x ys (y :: seen)]
        simp [hxy, hy]

theorem answer_mem_baseOpts (a : String) (raw : List JVal) : a ∈ baseOpts a raw := by
  simp only [baseOpts]
  split
  · assumption
  · exact List.mem_append_right _ (List.mem_singleton_self a)

theorem answer_mem_uniqueOpts (a : String) (raw : List JVal) :
    a ∈ uniqueOpts a raw :=
  (mem_dedupKeepFirst a (baseOpts a raw) []).2 ⟨answer_mem_baseOpts a raw, by simp⟩

theorem length_sanitizeOptions (a : String) (raw : List JVal) (cap : Nat)
    (js : List Nat) :
    (sanitizeOptions a raw cap js).length = min (uniqueOpts a raw).length cap := by
  unfold sanitizeOptions
  rw [List.length_take, shuffle_length]
  omega

theorem mem_uniqueOpts_of_mem_sanitizeOptions {a x : String} {raw : List JVal}
    {cap : Nat} {js : List Nat} (h : x ∈ sanitizeOptions a raw cap js) :
    x ∈ uniqueOpts a raw :=
  (mem_shuffle js (uniqueOpts a raw) x).1 (List.mem_of_mem_take h)

theorem sanitizeOptions_eq_shuffle {a : String} {raw : List JVal} {cap : Nat}
    (js : List Nat) (h : (uniqueOpts a raw).length ≤ cap) :
    sanitizeOptions a raw cap js = shuffle js (uniqueOpts a raw) := by
  simp only [sanitizeOptions]
  rw [Nat.min_eq_left h]
  exact List.take_of_length_le (by rw [shuffle_length])

theorem answer_mem_sanitizeOptions_of_lt {a : String} {raw : List JVal}
    {cap : Nat} {js : List Nat}
    (h : (sanitizeOptions a raw cap js).length < cap) :
    a ∈ sanitizeOptions a raw cap js := by
  have hlen := length_sanitizeOptions a raw cap js
  have hu : (uniqueOpts a raw).length ≤ cap := by omega
  rw [sanitizeOptions_eq_shuffle js hu]
  exact (mem_shuffle js _ a).2 (answer_mem_uniqueOpts a raw)

theorem sanitizeOptions_perm {a : String} {raw : List JVal} {cap : Nat}
    (js1 js2 : List Nat) (h : (uniqueOpts a raw).length ≤ cap) :
    List.Perm (sanitizeOptions a raw cap js1) (sanitizeOptions a raw cap js2) := by
  rw [sanitizeOptions_eq_shuffle js1 h, sanitizeOptions_eq_shuffle js2 h]
  exact (shuffle_perm js1 _).trans (shuffle_perm js2 _).symm

/-! ## Helper lemmas: per-item processing -/

theorem processItemFields_some {item : JVal} {js : List Nat} {q : Question}
    (h : processItemFields item js = some q) :
    q.question = itemQText item ∧ q.answer = itemAText item ∧
    q.direction = itemDirection item ∧ q.type = itemType item ∧
    q.questionLanguage = itemQLang item ∧
    q.explanation = explanationOf item (itemType item) ∧
    ((itemType item = .multipleChoice ∨ itemType item = .fillInTheBlanks) →
      q.options = some (itemOptions item js) ∧ 2 ≤ (itemOptions item js).length) ∧
    (itemType item = .typeAnswer → q.options = none) := by
  simp only [processItemFields] at h
  split at h
  · exact absurd h (by simp)
  · split at h
    · rename_i htype
      split at h
      · exact absurd h (by simp)
      · rename_i hlen
        cases h
        refine ⟨rfl, rfl, rfl, rfl, rfl, rfl, fun _ => ⟨rfl, by
          simpa [itemOptions] using Nat.le_of_not_lt hlen⟩, fun hta => ?_⟩
        rcases htype with he | he <;> rw [he] at hta <;> cases hta
    · rename_i htype
      cases h
      refine ⟨rfl, rfl, rfl, rfl, rfl, rfl, fun hmf => absurd hmf htype, fun _ => rfl⟩

theorem processItem_some {item : JVal} {js : List Nat} {q : Question}
    (h : processItem item js = some q) :
    q.question = itemQText item ∧ q.answer = itemAText item ∧
    q.direction = itemDirection item ∧ q.type = itemType item ∧
    q.questionLanguage = itemQLang item ∧
    q.explanation = explanationOf item (itemType item) ∧
    ((itemType item = .multipleChoice ∨ itemType item = .fillInTheBlanks) →
      q.options = some (itemOptions item js) ∧ 2 ≤ (itemOptions item js).length) ∧
    (itemType item = .typeAnswer → q.options = none) := by
  cases item <;> simp only [processItem] at h <;>
    first
      | exact absurd h (by simp)
      | exact processItemFields_some h

theorem processItemFields_isSome (item : JVal) (js1 js2 : List Nat) :
    (processItemFields item js1).isSome = (processItemFields item js2).isSome := by
  simp only [processItemFields]
  split
  · rfl
  · split
    · have hl : (sanitizeOptions (itemAText item) ((itemOptsArr item).getD [])
          (optionCap (itemType item)) js1).length =
          (sanitizeOptions (itemAText item) ((itemOptsArr item).getD [])
            (optionCap (itemType item)) js2).length := by
        rw [length_sanitizeOptions, length_sanitizeOptions]
      by_cases hc : (sanitizeOptions (itemAText item) ((itemOptsArr item).getD [])
          (optionCap (itemType item)) js2).length < 2
      · rw [if_pos (hl ▸ hc), if_pos hc]
      · rw [if_neg (fun hx => hc (hl ▸ hx)), if_neg hc]
        rfl
    · rfl

theorem processItem_isSome (item : JVal) (js1 js2 : List Nat) :
    (processItem item js1).isSome = (processItem item js2).isSome := by
  cases item <;> simp only [processItem] <;>
    first
      | rfl
      | exact processItemFields_isSome _ js1 js2

theorem processItem_rel {item : JVal} {js1 js2 : List Nat} {q1 q2 : Question}
    (h1 : processItem item js1 = some q1) (h2 : processItem item js2 = some q2) :
    sameNonOption q1 q2 ∧ optsAgree q1 q2 := by
  obtain ⟨e1q, e1a, e1d, e1t, e1l, e1e, e1o, e1n⟩ := processItem_some h1
  obtain ⟨e2q, e2a, e2d, e2t, e2l, e2e, e2o, e2n⟩ := processItem_some h2
  refine ⟨⟨e1q.trans e2q.symm, e1a.trans e2a.symm, e1d.trans e2d.symm,
    e1t.trans e2t.symm, e1l.trans e2l.symm, e1e.trans e2e.symm⟩, ?_⟩
  cases ht : itemType item with
  | typeAnswer =>
    simp [optsAgree, e1n ht, e2n ht]
  | multipleChoice =>
    obtain ⟨ho1, _⟩ := e1o (Or.inl ht)
    obtain ⟨ho2, _⟩ := e2o (Or.inl ht)
    simp only [optsAgree, ho1, ho2]
    refine ⟨by simp only [itemOptions, length_sanitizeOptions], fun hlt => ?_⟩
    rw [e1t, ht] at hlt
    simp only [itemOptions, length_sanitizeOptions, ht] at hlt ⊢
    exact sanitizeOptions_perm js1 js2 (by omega)
  | fillInTheBlanks =>
    obtain ⟨ho1, _⟩ := e1o (Or.inr ht)
    obtain ⟨ho2, _⟩ := e2o (Or.inr ht)
    simp only [optsAgree, ho1, ho2]
    refine ⟨by simp only [itemOptions, length_sanitizeOptions], fun hlt => ?_⟩
    rw [e1t, ht] at hlt
    simp only [itemOptions, length_sanitizeOptions, ht] at hlt ⊢
    exact sanitizeOptions_perm js1 js2 (by omega)

/-! ## Helper lemmas: the collection loop -/

theorem collectLoop_length (count : Nat) :
    ∀ (items : List JVal) (rands : List (List Nat)) (got : Nat),
      got < count → got + (collectLoop count items rands got).length ≤ count
  | [], _, _, h => by simpa [collectLoop] using Nat.le_of_lt h
  | it :: rest, rands, got, h => by
    rw [collectLoop]
    cases hp : processItem it (rands.headD []) with
    | none => exact collectLoop_length count rest rands.tail got h
    | some q =>
      by_cases hc : count ≤ got + 1
      · simpa [hc] using Nat.succ_le_of_lt h
      · have ih := collectLoop_length count rest rands.tail (got + 1)
          (Nat.lt_of_not_le hc)
        simp only [if_neg hc, List.length_cons]
        omega

theorem collectLoop_mem (count : Nat) :
    ∀ (items : List JVal) (rands : List (List Nat)) (got : Nat) (q : Question),
      q ∈ collectLoop count items rands got →
      ∃ it ∈ items, ∃ js, processItem it js = some q
  | [], _, _, q, h => by simp [collectLoop] at h
  | it :: rest, rands, got, q, h => by
    rw [collectLoop] at h
    cases hp : processItem it (rands.headD []) with
    | none =>
      rw [hp] at h
      obtain ⟨it', hm, js, hq⟩ := collectLoop_mem count rest rands.tail got q h
      exact ⟨it', List.mem_cons_of_mem _ hm, js, hq⟩
    | some q0 =>
      rw [hp] at h
      by_cases hc : count ≤ got + 1
      · simp only [if_pos hc, List.mem_singleton] at h
        exact ⟨it, List.mem_cons_self it rest, rands.headD [], h ▸ hp⟩
      · simp only [if_neg hc, List.mem_cons] at h
        cases h with
        | inl he => exact ⟨it, List.mem_cons_self it rest, rands.headD [], he ▸ hp⟩
        | inr hm =>
          obtain ⟨it', hm', js, hq⟩ := collectLoop_mem count rest rands.tail (got + 1) q hm
          exact ⟨it', List.mem_cons_of_mem _ hm', js, hq⟩

theorem collectLoop_rel (count : Nat) :
    ∀ (items : List JVal) (r1 r2 : List (List Nat)) (got : Nat),
      List.Forall₂ (fun q1 q2 => sameNonOption q1 q2 ∧ optsAgree q1 q2)
        (collectLoop count items r1 got) (collectLoop count items r2 got)
  | [], _, _, _ => by simp [collectLoop]
  | it :: rest, r1, r2, got => by
    rw [collectLoop, collectLoop]
    have hsome := processItem_isSome it (r1.headD []) (r2.headD [])
    cases h1 : processItem it (r1.headD []) with
    | none =>
      cases h2 : processItem it (r2.headD []) with
      | none => exact collectLoop_rel count rest r1.tail r2.tail got
      | some q2 => rw [h1, h2] at hsome; simp at hsome
    | some q1 =>
      cases h2 : processItem it (r2.headD []) with
      | none => rw [h1, h2] at hsome; simp at hsome
      | some q2 =>
        have hrel := processItem_rel h1 h2
        by_cases hc : count ≤ got + 1
        · simp only [if_pos hc]
          exact List.Forall₂.cons hrel List.Forall₂.nil
        · simp only [if_neg hc]
          exact List.Forall₂.cons hrel
            (collectLoop_rel count rest r1.tail r2.tail (got + 1))

/-- Successful sanitizer runs expose the parsed array and the collection
loop result. -/
theorem parseQuestions_ok_elim {raw : String} {count : Nat}
    {rands : List (List Nat)} {qs : List Question}
    (h : parseQuestionsFromText raw count rands = .ok qs) :
    ∃ items, jsonParse (prepContent raw) = some (.arr items) ∧
      qs = collectLoop count items rands 0 ∧ qs ≠ [] := by
  rw [parseQuestionsFromText] at h
  cases hp : jsonParse (prepContent raw) with
  | none => rw [hp] at h; cases h
  | some v =>
    cases v with
    | arr items =>
      rw [hp] at h
      simp only at h
      split at h
      · cases h
      · rename_i hne
        cases h
        exact ⟨items, rfl, rfl, by simpa [List.isEmpty_iff] using hne⟩
    | null => rw [hp] at h; cases h
    | bool b => rw [hp] at h; cases h
    | num lex => rw [hp] at h; cases h
    | str s => rw [hp] at h; cases h
    | obj kvs => rw [hp] at h; cases h

/-! ## Helper lemmas: client state machine -/

theorem setSparse_padded_length (l : List (Option AnswerRecord)) (i : Nat) :
    i < (if l.length ≤ i then l ++ List.replicate (i + 1 - l.length) none
      else l).length := by
  split <;> rename_i h
  · simp only [List.length_append, List.length_replicate]
    omega
  · omega

theorem setSparse_get (l : List (Option AnswerRecord)) (i : Nat)
    (v : AnswerRecord) : (setSparse l i v).get? i = some (some v) := by
  simp only [setSparse]
  rw [List.get?_eq_getElem?]
  rw [List.getElem?_set_self (by simpa using setSparse_padded_length l i)]

theorem sameTriple_iff (r e : BandReport) :
    sameTriple r e = true ↔ reportKey r = reportKey e := by
  simp [sameTriple, reportKey, Prod.ext_iff]

/-- The replace-then-append update of `handleNext` keeps the history free
of duplicate triples and installs the new entry. -/
theorem upsert_historyOk (l : List BandReport) (e : BandReport)
    (h : historyOk l) :
    historyOk (l.filter (fun r => ¬ sameTriple r e) ++ [e]) := by
  unfold historyOk at h ⊢
  rw [List.map_append, List.nodup_append]
  refine ⟨?_, by simp, ?_⟩
  · exact h.sublist ((List.filter_sublist l).map reportKey)
  · intro x hx
    simp only [List.map_cons, List.map_nil, List.mem_singleton]
    intro hxe
    subst hxe
    obtain ⟨r, hr, hkey⟩ := List.mem_map.1 hx
    have hpred := List.of_mem_filter hr
    simp only [decide_eq_true_eq] at hpred
    exact hpred ((sameTriple_iff r e).2 hkey)

theorem handleAnswer_sessionReports (st : ClientState) (s : String) :
    (handleAnswer st s).sessionReports = st.sessionReports := by
  unfold handleAnswer
  cases st.questions.get? st.currentQuestionIndex <;> rfl

theorem handlePrevious_sessionReports (st : ClientState) :
    (handlePrevious st).sessionReports = st.sessionReports := by
  unfold handlePrevious
  split <;> rfl

theorem stepAction_historyOk (st : ClientState) (a : ClientAction)
    (h : historyOk st.sessionReports) :
    historyOk (stepAction st a).sessionReports := by
  cases a with
  | answer s =>
    rw [stepAction]
    split
    · rw [handleAnswer_sessionReports]; exact h
    · exact h
  | next =>
    rw [stepAction]
    split
    · rw [handleNext]
      split
      · exact h
      · exact upsert_historyOk _ _ h
    · exact h
  | previous =>
    rw [stepAction]
    split
    · rw [handlePrevious_sessionReports]; exact h
    · exact h
  | start lang lvl band => exact h
  | questionsLoaded qs =>
    rw [stepAction]
    split <;> exact h
  | fetchFailed =>
    rw [stepAction]
    split <;> exact h
  | reset => simp [stepAction, resetSession, historyOk]
  | changeLanguage => simp [stepAction, resetLanguageFlow, historyOk]
  | changeLevel => exact h

theorem runActions_historyOk (st : ClientState) (acts : List ClientAction)
    (h : historyOk st.sessionReports) :
    historyOk (runActions st acts).sessionReports := by
  induction acts generalizing st with
  | nil => exact h
  | cons a rest ih => exact ih (stepAction st a) (stepAction_historyOk st a h)

/-! ## Claim C10 -/

/-- Claim C10: for every randomness stream and every input list, `shuffle`
returns a permutation of the list: same length and same multiset of
elements.  (The JavaScript function first copies the array, so the input
itself is untouched; the model is accordingly a pure function.) -/
theorem c10_shuffle_is_permutation {α : Type} (js : List Nat) (l : List α) :
    List.Perm (shuffle js l) l ∧ (shuffle js l).length = l.length ∧
    ∀ x, x ∈ shuffle js l ↔ x ∈ l :=
  ⟨shuffle_perm js l, shuffle_length js l, fun x => mem_shuffle js l x⟩

/-! ## Claim C4 -/

/-- Claim C4 is violated by the code: starting a two-question band,
answering question 1 correctly, going next, then previous, the answer
buttons are re-enabled (`handlePrevious` resets `showResult`), so the user
can submit question 1 again: the score rises to 2 although only one
question was ever answered, and the answer record is overwritten.  The
third conjunct shows the same single correct answer without the
previous/re-answer detour yields score 1. -/
theorem c4_previous_allows_rescoring :
    (runActions stC4 [.answer "a", .next, .previous, .answer "a"]).score = 2 ∧
    (runActions stC4 [.answer "a", .next, .previous, .answer "a"]).answers =
      [some ⟨"Q1", "a", "a", true, some "e1"⟩] ∧
    (runActions stC4 [.answer "a", .next]).score = 1 :=
  ⟨rfl, rfl, rfl⟩

/-! ## Claim C6 -/

/-- Claim C6 as stated is false: the element `itemC6` carries an explicit
`type-answer` tag together with two options; the claim's rule classifies
it `multiple-choice` (non-empty options), but the code's explicit
`type-answer` tag wins and the sanitizer emits a type-answer question. -/
theorem c6_counterexample : ¬ claimC6Statement := by
  intro hcl
  have h := hcl itemC6 [] qC6 rfl
  exact QType.noConfusion h

/-- Claim C6 (amended): an explicit `fill-in-the-blanks` tag wins;
otherwise an explicit `type-answer` tag, or an options field that is not a
non-empty array, gives `type-answer`; otherwise the type is
`multiple-choice`.  In particular `options: []` with no `type` field is
classified `type-answer`. -/
theorem c6_type_determination (item : JVal) (js : List Nat) (q : Question)
    (h : processItem item js = some q) :
    q.type = (if itemTypeTag item "fill-in-the-blanks" then QType.fillInTheBlanks
      else if itemTypeTag item "type-answer" ∨ ¬ itemHasOptions item then
        QType.typeAnswer
      else QType.multipleChoice) ∧
    (getField item "options" = some (.arr []) → getField item "type" = none →
      q.type = .typeAnswer) := by
  have ht : q.type = itemType item := (processItem_some h).2.2.2.1
  refine ⟨ht.trans rfl, fun hopt htype => ?_⟩
  rw [ht]
  simp [itemType, itemTypeTag, itemHasOptions, itemOptsArr, htype, hopt]

/-- Witness for C6: the boundary element with `options: []` and no `type`
field is classified `type-answer` by the sanitizer. -/
theorem c6_type_determination_witness :
    processItem itemC6w [] = some qC6w ∧ qC6w.type = .typeAnswer :=
  ⟨rfl, (c6_type_determination itemC6w [] qC6w rfl).2 rfl rfl⟩

/-! ## Claim C2 -/

/-- Validation of `POST` spelled as a single conditional. -/
theorem postValidate_eq (body : JVal) :
    postValidate body =
      if jsFalsyField (getField body "language") ∨
          jsFalsyField (getField body "level") ∨
          coerceBandV (getField body "band") = .nan ∨
          coerceCountV (getField body "count") = .nan then
        .badRequest
      else
        .proceed ((getField body "language").getD .null)
          ((getField body "level").getD .null)
          (coerceBandV (getField body "band"))
          (coerceCountV (getField body "count")) := rfl

/-- The `count` coercion yields `NaN` exactly for non-numeric strings. -/
theorem coerceCountV_nan_iff (f : Option JVal) :
    coerceCountV f = .nan ↔
      ∃ s, f = some (.str s) ∧ strIsNumericJS s = false := by
  cases f with
  | none => simp [coerceCountV]
  | some v =>
    cases v with
    | null => simp [coerceCountV]
    | bool b => simp [coerceCountV]
    | num lex => simp [coerceCountV]
    | arr l => simp [coerceCountV]
    | obj kvs => simp [coerceCountV]
    | str s =>
      simp only [coerceCountV]
      by_cases h : strIsNumericJS s
      · rw [if_pos h]
        constructor
        · intro hx; cases hx
        · rintro ⟨s', hs', hnum⟩
          cases hs'
          exact absurd hnum (by simp [h])
      · rw [if_neg h]
        exact ⟨fun _ => ⟨s, rfl, by simpa using h⟩, fun _ => rfl⟩

/-- Claim C2 as stated is false: a request body with valid language, level
and band but no `count` field at all is not rejected — `count` silently
defaults to 6 and the handler proceeds. -/
theorem c2_counterexample : ¬ claimC2MissingCount := by
  intro hcl
  have h := hcl bodyC2 rfl
  rw [show postValidate bodyC2 = .proceed (.str "French") (.str "Basic")
    (.fromNumber "2") .defaulted from rfl] at h
  cases h

/-- Claim C2 (amended): the handler responds 400 exactly when `language`
or `level` is missing or falsy, `band` is missing or fails numeric
coercion, or `count` is supplied as a non-numeric string; a missing
`count` is never itself a reason for 400 — it defaults to 6. -/
theorem c2_validation (body : JVal) :
    (postValidate body = .badRequest ↔
      (jsFalsyField (getField body "language") = true ∨
        jsFalsyField (getField body "level") = true ∨
        coerceBandV (getField body "band") = .nan ∨
        ∃ s, getField body "count" = some (.str s) ∧ strIsNumericJS s = false)) ∧
    (getField body "count" = none → postValidate body ≠ .badRequest →
      ∃ lang lvl band, postValidate body = .proceed lang lvl band .defaulted) := by
  have hcnt := coerceCountV_nan_iff (getField body "count")
  constructor
  · rw [postValidate_eq]
    by_cases hcond : (jsFalsyField (getField body "language") = true ∨
        jsFalsyField (getField body "level") = true ∨
        coerceBandV (getField body "band") = Coerced.nan ∨
        coerceCountV (getField body "count") = Coerced.nan)
    · rw [if_pos hcond]
      refine ⟨fun _ => ?_, fun _ => rfl⟩
      rcases hcond with h | h | h | h
      · exact Or.inl h
      · exact Or.inr (Or.inl h)
      · exact Or.inr (Or.inr (Or.inl h))
      · exact Or.inr (Or.inr (Or.inr (hcnt.1 h)))
    · rw [if_neg hcond]
      refine ⟨fun h => absurd h (by intro hx; cases hx), fun hrhs => ?_⟩
      exfalso
      apply hcond
      rcases hrhs with h | h | h | h
      · exact Or.inl h
      · exact Or.inr (Or.inl h)
      · exact Or.inr (Or.inr (Or.inl h))
      · exact Or.inr (Or.inr (Or.inr (hcnt.2 h)))
  · intro hnone hne
    rw [postValidate_eq] at hne ⊢
    by_cases hcond : (jsFalsyField (getField body "language") = true ∨
        jsFalsyField (getField body "level") = true ∨
        coerceBandV (getField body "band") = Coerced.nan ∨
        coerceCountV (getField body "count") = Coerced.nan)
    · rw [if_pos hcond] at hne
      exact absurd rfl hne
    · rw [if_neg hcond]
      exact ⟨_, _, _, by rw [show coerceCountV (getField body "count") =
        .defaulted from by rw [hnone]; rfl]⟩

/-- Witness for C2 (amended): the concrete body with no `count` proceeds
with the defaulted count. -/
theorem c2_validation_witness :
    postValidate bodyC2 ≠ .badRequest ∧
    ∃ lang lvl band, postValidate bodyC2 = .proceed lang lvl band .defaulted := by
  have hne : postValidate bodyC2 ≠ .badRequest := by
    rw [show postValidate bodyC2 = .proceed (.str "French") (.str "Basic")
      (.fromNumber "2") .defaulted from rfl]
    intro h
    cases h
  exact ⟨hne, (c2_validation bodyC2).2 rfl hne⟩

/-! ## Claim C9 -/

/-- Claim C9: a submitted answer is judged correct if and only if it equals
the canonical answer under the lossy normalization (lower-casing, trimming,
stripping the punctuation class, collapsing whitespace); the record stores
the verbatim submission and the score rises exactly on a match. -/
theorem c9_answer_judged (st : ClientState) (s : String) (q : Question)
    (hq : st.questions.get? st.currentQuestionIndex = some q)
    (hg : canAnswer st = true) :
    ∃ r : AnswerRecord,
      (stepAction st (.answer s)).answers.get? st.currentQuestionIndex =
        some (some r) ∧
      r.question = q.question ∧ r.userAnswer = s ∧ r.correctAnswer = q.answer ∧
      (r.correct = true ↔ normalizeAnswer s = normalizeAnswer q.answer) ∧
      (stepAction st (.answer s)).score =
        (if normalizeAnswer s = normalizeAnswer q.answer then st.score + 1
          else st.score) := by
  simp only [stepAction, if_pos hg]
  simp only [handleAnswer, hq]
  refine ⟨⟨q.question, s, q.answer,
    normalizeAnswer s == normalizeAnswer q.answer, some q.explanation⟩,
    setSparse_get st.answers st.currentQuestionIndex _, rfl, rfl, rfl, ?_, ?_⟩
  · simp [beq_iff_eq]
  · by_cases h : normalizeAnswer s = normalizeAnswer q.answer
    · simp [h]
    · simp [h]

/-- Witness for C9: submitting `"bonjour!"` against canonical answer
`"Bonjour"` is judged correct and scores one point. -/
theorem c9_answer_judged_witness :
    ∃ r : AnswerRecord,
      (stepAction stC9 (.answer "bonjour!")).answers.get? 0 = some (some r) ∧
      r.correct = true ∧ (stepAction stC9 (.answer "bonjour!")).score = 1 := by
  obtain ⟨r, h1, -, -, -, hc, hs⟩ := c9_answer_judged stC9 "bonjour!" qC9 rfl rfl
  have hnorm : normalizeAnswer "bonjour!" = normalizeAnswer qC9.answer := by decide
  refine ⟨r, h1, hc.2 hnorm, ?_⟩
  rw [hs, if_pos hnorm]
  rfl

/-! ## Claim C8 -/

/-- Claim C8: the session history never holds two band reports for the
same (band, level, language) triple — every reachable history from a
duplicate-free one stays duplicate-free — and finishing the last question
of a band replaces any prior report for the triple with the freshly folded
one (`filter` out the triple, then append). -/
theorem c8_band_report_replacement (st : ClientState) (acts : List ClientAction)
    (h : historyOk st.sessionReports) :
    historyOk (runActions st acts).sessionReports ∧
    (canNavigate st = true → st.questions.length - 1 ≤ st.currentQuestionIndex →
      (stepAction st .next).sessionReports =
        st.sessionReports.filter (fun r => ¬ sameTriple r (bandEntry st)) ++
          [bandEntry st]) := by
  refine ⟨runActions_historyOk st acts h, fun hg hlast => ?_⟩
  simp only [stepAction, if_pos hg]
  rw [handleNext, if_neg (by omega)]

/-- Witness for C8: finishing the single question of band 1 with an older
report for (band 1, Basic, French) in the history replaces that report and
keeps the history duplicate-free. -/
theorem c8_band_report_replacement_witness :
    historyOk (runActions stC8 [ClientAction.next]).sessionReports ∧
    (stepAction stC8 .next).sessionReports =
      stC8.sessionReports.filter (fun r => ¬ sameTriple r (bandEntry stC8)) ++
        [bandEntry stC8] :=
  ⟨(c8_band_report_replacement stC8 [.next]
      (show (stC8.sessionReports.map reportKey).Nodup by decide)).1,
    (c8_band_report_replacement stC8 [.next]
      (show (stC8.sessionReports.map reportKey).Nodup by decide)).2
      (by decide) (by decide)⟩

/-! ## Claim C1 -/

/-- Claim C1 exactly as stated. -/
def claimC1Statement : Prop :=
  ∀ (raw : String) (count : Nat) (rands : List (List Nat)) (qs : List Question),
    1 ≤ count → parseQuestionsFromText raw count rands = .ok qs →
    qs.length ≤ count ∧
    ∀ q ∈ qs,
      ((q.type = .multipleChoice ∨ q.type = .fillInTheBlanks) →
        ∃ l, q.options = some l ∧ l ≠ [] ∧ q.answer ∈ l ∧
          (q.type = .multipleChoice → l.length ≤ 5) ∧
          (q.type = .fillInTheBlanks → l.length ≤ 4)) ∧
      (q.type = .typeAnswer → q.options = none)

/-- Claim C1 as stated is false: sanitizing `rawC1` (a fill-in-the-blanks
item with four options, to which the missing answer `"E"` is appended as a
fifth) with the identity shuffle truncates the list back to four options
and drops the answer, so the output's options do not contain its answer. -/
theorem c1_counterexample : ¬ claimC1Statement := by
  intro hcl
  obtain ⟨-, hall⟩ := hcl rawC1 6 [[4, 3, 2, 1]] [qC1bad] (by decide) rfl
  obtain ⟨hmf, -⟩ := hall qC1bad (List.mem_singleton_self qC1bad)
  obtain ⟨l, hl, -, hmem, -, -⟩ := hmf (Or.inr rfl)
  rw [show qC1bad.options = some ["A", "B", "C", "D"] from rfl] at hl
  cases hl
  exact absurd hmem (by decide)

/-- Claim C1 (amended): on every successful sanitizer run with a positive
requested count, the output has at most `count` questions; every
multiple-choice or fill-in-the-blanks question carries between 2 and 5
(respectively 4) options, and the options contain the question's answer
whenever the list is below its cap — a full-length list may have lost the
answer to post-shuffle truncation; type-answer questions carry no
options. -/
theorem c1_sanitizer_invariant (raw : String) (count : Nat)
    (rands : List (List Nat)) (qs : List Question) (hcount : 1 ≤ count)
    (h : parseQuestionsFromText raw count rands = .ok qs) :
    qs.length ≤ count ∧
    ∀ q ∈ qs,
      ((q.type = .multipleChoice ∨ q.type = .fillInTheBlanks) →
        ∃ l, q.options = some l ∧ 2 ≤ l.length ∧ l.length ≤ optionCap q.type ∧
          (l.length < optionCap q.type → q.answer ∈ l)) ∧
      (q.type = .typeAnswer → q.options = none) := by
  obtain ⟨items, hp, hqs, -⟩ := parseQuestions_ok_elim h
  constructor
  · have hlen := collectLoop_length count items rands 0 hcount
    rw [hqs]
    omega
  · intro q hqmem
    rw [hqs] at hqmem
    obtain ⟨it, -, js, hit⟩ := collectLoop_mem count items rands 0 q hqmem
    obtain ⟨-, ea, -, et, -, -, eo, en⟩ := processItem_some hit
    refine ⟨fun hmf => ?_, fun hta => en (by rwa [← et])⟩
    obtain ⟨ho, h2⟩ := eo (by rwa [← et])
    refine ⟨itemOptions it js, ho, h2, ?_, fun hlt => ?_⟩
    · rw [et]
      simp only [itemOptions, length_sanitizeOptions]
      omega
    · rw [et] at hlt
      rw [ea]
      exact answer_mem_sanitizeOptions_of_lt
        (by simpa only [itemOptions, length_sanitizeOptions] using
          (by simpa only [itemOptions, length_sanitizeOptions] using hlt))

/-- Witness for C1 (amended): the section-8 example input with count 6 and
the empty randomness stream. -/
theorem c1_sanitizer_invariant_witness :
    (1 : Nat) ≤ 6 ∧ parseQuestionsFromText rawExample8 6 [] = .ok [q8] ∧
    ([q8].length ≤ 6 ∧
      ∀ q ∈ [q8],
        ((q.type = .multipleChoice ∨ q.type = .fillInTheBlanks) →
          ∃ l, q.options = some l ∧ 2 ≤ l.length ∧ l.length ≤ optionCap q.type ∧
            (l.length < optionCap q.type → q.answer ∈ l)) ∧
        (q.type = .typeAnswer → q.options = none)) :=
  ⟨by decide, rfl, c1_sanitizer_invariant rawExample8 6 [] [q8] (by decide) rfl⟩

/-! ## Claim C5 -/

/-- Claim C5 as stated is false: sanitizing `rawC5` (six distinct options
including the answer, multiple-choice cap 5) under two different shuffles
keeps two different five-element subsets — the identity shuffle keeps
`A`..`E`, the all-zero shuffle keeps `B`..`F` — so the two runs do not
produce the same set of options. -/
theorem c5_counterexample : ¬ claimC5Statement := by
  intro hcl
  obtain ⟨-, hpt⟩ := hcl rawC5 6 [[5, 4, 3, 2, 1]] [[0, 0, 0, 0, 0]]
    [qC5a] [qC5b] rfl rfl
  have hperm := (hpt 0 (by decide) (by decide)).2
    ["A", "B", "C", "D", "E"] ["B", "C", "D", "E", "F"] rfl rfl
  exact absurd
    (hperm.mem_iff.2 (show "F" ∈ ["B", "C", "D", "E", "F"] by decide))
    (by decide)

/-- Claim C5 (amended): two sanitizer runs on the same raw text and count
agree on the number of questions and, position by position, on every
non-option field; the option lists have equal length, and they are equal
as multisets whenever that length is below the type's cap (no
truncation) — truncated lists may keep different subsets. -/
theorem c5_shuffle_determinism (raw : String) (count : Nat)
    (r1 r2 : List (List Nat)) (qs1 qs2 : List Question)
    (h1 : parseQuestionsFromText raw count r1 = .ok qs1)
    (h2 : parseQuestionsFromText raw count r2 = .ok qs2) :
    qs1.length = qs2.length ∧
    ∀ i (hi1 : i < qs1.length) (hi2 : i < qs2.length),
      sameNonOption (qs1.get ⟨i, hi1⟩) (qs2.get ⟨i, hi2⟩) ∧
      optsAgree (qs1.get ⟨i, hi1⟩) (qs2.get ⟨i, hi2⟩) := by
  obtain ⟨items1, hp1, hqs1, -⟩ := parseQuestions_ok_elim h1
  obtain ⟨items2, hp2, hqs2, -⟩ := parseQuestions_ok_elim h2
  rw [hp1] at hp2
  injection hp2 with hp2'
  injection hp2' with hp2''
  subst hp2''
  have hrel := collectLoop_rel count items1 r1 r2 0
  rw [← hqs1, ← hqs2] at hrel
  exact ⟨hrel.length_eq, fun i hi1 hi2 => hrel.get hi1 hi2⟩

/-- Witness for C5 (amended): two runs on the section-8 example under the
randomness streams `[]` and `[[1]]` produce options in different orders
but agree as required. -/
theorem c5_shuffle_determinism_witness :
    [q8].length = [q8b].length ∧ sameNonOption q8 q8b ∧ optsAgree q8 q8b := by
  obtain ⟨hlen, hpt⟩ := c5_shuffle_determinism rawExample8 6 [] [[1]]
    [q8] [q8b] rfl rfl
  exact ⟨hlen, (hpt 0 (by decide) (by decide)).1, (hpt 0 (by decide) (by decide)).2⟩

/-! ## Claim C7 -/

/-- Claim C7: the section-8 raw text — a clean JSON question array wrapped
in markdown fences with commentary before the first `[` and after the last
`]` — is stripped to the bracketed span and parsed: for every positive
requested count and every shuffle randomness it yields exactly one
question, with answer `"Bonjour"` and options containing both `"Bonjour"`
and `"Salut"`. -/
theorem c7_fenced_example (count : Nat) (rands : List (List Nat))
    (hcount : 1 ≤ count) :
    ∃ q, parseQuestionsFromText rawExample8 count rands = .ok [q] ∧
      q.question = "Hello" ∧ q.answer = "Bonjour" ∧
      ∃ l, q.options = some l ∧ l.length = 2 ∧ "Bonjour" ∈ l ∧ "Salut" ∈ l := by
  have hsome : (processItem item8 (rands.headD [])).isSome = true := by
    rw [processItem_isSome item8 (rands.headD []) []]
    decide
  obtain ⟨q, hq⟩ := Option.isSome_iff_exists.1 hsome
  obtain ⟨eq, ea, -, et, -, -, eo, -⟩ := processItem_some hq
  have hmc : itemType item8 = .multipleChoice := by decide
  obtain ⟨ho, -⟩ := eo (Or.inl hmc)
  have hu : uniqueOpts (itemAText item8) ((itemOptsArr item8).getD []) =
      ["Bonjour", "Salut"] := by decide
  have hopts : itemOptions item8 (rands.headD []) =
      shuffle (rands.headD []) ["Bonjour", "Salut"] := by
    rw [itemOptions, sanitizeOptions_eq_shuffle (rands.headD [])
      (by rw [hu]; decide), hu]
  refine ⟨q, ?_, eq.trans rfl, ea.trans rfl,
    shuffle (rands.headD []) ["Bonjour", "Salut"], by rw [← hopts]; exact ho,
    by rw [shuffle_length]; rfl, (mem_shuffle _ _ _).2 (by decide),
    (mem_shuffle _ _ _).2 (by decide)⟩
  rw [parseQuestionsFromText,
    show jsonParse (prepContent rawExample8) = some (.arr [item8]) from rfl]
  have hcol : collectLoop count [item8] rands 0 = [q] := by
    rw [collectLoop, hq]
    by_cases hc : count ≤ 0 + 1
    · simp [hc]
    · simp [hc, collectLoop]
  simp only [hcol]
  rfl

/-- Witness for C7: the section-8 input at count 6 with the empty
randomness stream. -/
theorem c7_fenced_example_witness :
    (1 : Nat) ≤ 6 ∧
    ∃ q, parseQuestionsFromText rawExample8 6 [] = .ok [q] ∧
      q.question = "Hello" ∧ q.answer = "Bonjour" ∧
      ∃ l, q.options = some l ∧ l.length = 2 ∧ "Bonjour" ∈ l ∧ "Salut" ∈ l :=
  ⟨by decide, c7_fenced_example 6 [] (by decide)⟩

/-! ## Claim C3 -/

theorem parse_malContent (count : Nat) (rands : List (List Nat)) :
    parseQuestionsFromText "not json" count rands = .error .malformedJSON := rfl

theorem parse_goodContent (count : Nat) (rands : List (List Nat)) :
    parseQuestionsFromText goodContent count rands = .ok [qGood] := by
  rw [parseQuestionsFromText,
    show jsonParse (prepContent goodContent) = some (.arr [itemGood]) from rfl]
  have hcol : collectLoop count [itemGood] rands 0 = [qGood] := by
    rw [collectLoop, show processItem itemGood (rands.headD []) = some qGood from rfl]
    by_cases hc : count ≤ 0 + 1
    · simp [hc]
    · simp [hc, collectLoop]
  simp only [hcol]
  rfl

/-- A malformed response consumed with the shared counter below 2 causes
one more provider call with the counter incremented. -/
theorem groqGo_mal (count fuel : Nat) (rest : List GroqOutcome)
    (rands : List (List (List Nat))) (rc : Nat) (hrc : rc < 2) :
    groqGo count (fuel + 1) (malOut :: rest) rands rc =
      ((groqGo count fuel rest rands.tail (rc + 1)).1,
        (groqGo count fuel rest rands.tail (rc + 1)).2 + 1) := by
  rw [groqGo.eq_def]
  simp only [malOut, malContent]
  rw [show jsTrim "not json" = "not json" from rfl]
  rw [if_neg (by decide : ¬ ("not json" : String).isEmpty = true)]
  rw [parse_malContent]
  simp only []
  rw [if_pos (⟨hrc, rfl⟩ : rc < 2 ∧ errMsgHasJSON (.sanitize .malformedJSON) = true)]

/-- A malformed response with the shared counter at 2 propagates. -/
theorem groqGo_mal_last (count fuel : Nat) (rest : List GroqOutcome)
    (rands : List (List (List Nat))) (rc : Nat) (hrc : ¬ rc < 2) :
    groqGo count (fuel + 1) (malOut :: rest) rands rc =
      (.error (.sanitize .malformedJSON), 1) := by
  rw [groqGo.eq_def]
  simp only [malOut, malContent]
  rw [show jsTrim "not json" = "not json" from rfl]
  rw [if_neg (by decide : ¬ ("not json" : String).isEmpty = true)]
  rw [parse_malContent]
  simp only []
  rw [if_neg (fun hx => hrc hx.1)]

/-- A well-formed response succeeds on the spot. -/
theorem groqGo_good (count fuel : Nat) (rest : List GroqOutcome)
    (rands : List (List (List Nat))) (rc : Nat) :
    groqGo count (fuel + 1) (goodOut :: rest) rands rc = (.ok [qGood], 1) := by
  rw [groqGo.eq_def]
  simp only [goodOut]
  rw [show jsTrim goodContent = goodContent from rfl]
  rw [if_neg (by decide : ¬ (goodContent : String).isEmpty = true)]
  rw [parse_goodContent]

/-- An HTTP 429 with the shared counter below 2 recurses inside the `try`
block, and its frame's `catch` re-examines errors of the recursion. -/
theorem groqGo_429 (count fuel : Nat) (rest : List GroqOutcome)
    (rands : List (List (List Nat))) (rc : Nat) (hrc : rc < 2) :
    groqGo count (fuel + 1) (GroqOutcome.httpErr 429 :: rest) rands rc =
      (match groqGo count fuel rest rands.tail (rc + 1) with
       | (.ok qs, n) => (.ok qs, n + 1)
       | (.error e, n) =>
         if rc < 2 ∧ errMsgHasJSON e = true then
           ((groqGo count fuel (rest.drop n) (rands.drop (n + 1)) (rc + 1)).1,
             (groqGo count fuel (rest.drop n) (rands.drop (n + 1)) (rc + 1)).2 + n + 1)
         else (.error e, n + 1)) := by
  rw [groqGo.eq_def]
  simp only []
  rw [if_pos (⟨Or.inl trivial, hrc⟩ : (True ∨ (429 : Nat) = 503) ∧ rc < 2)]

/-- Claim C3 as stated is false: if a JSON-parsing failure allowed exactly
one extra retry, two malformed responses in a row would always propagate
the error; but with the script malformed, malformed, well-formed the call
succeeds — the second malformed response was retried a second time. -/
theorem c3_counterexample : ¬ claimC3Statement := by
  intro hcl
  have h := hcl [goodOut] 6 []
  rw [show (generateWithGroq true 6 (malOut :: malOut :: [goodOut]) []).1 =
    .ok [qGood] from rfl] at h
  cases h

/-- Claim C3 (amended): the JSON-parse retry shares the HTTP retry counter
rather than having a distinct budget.  A malformed response is retried
while the shared counter is below 2, so three malformed responses exhaust
it (three provider calls, then the error propagates) and a well-formed
third response is still consumed; moreover the HTTP retry recursion sits
inside the `try` block, so after two 429 retries a malformed response is
caught again by the enclosing frames and a fourth call is made. -/
theorem c3_retry_structure :
    (∀ (rest : List GroqOutcome) (count : Nat) (rands : List (List (List Nat))),
      generateWithGroq true count (malOut :: malOut :: malOut :: rest) rands =
        (.error (.sanitize .malformedJSON), 3)) ∧
    (∀ (rest : List GroqOutcome) (count : Nat) (rands : List (List (List Nat))),
      generateWithGroq true count (malOut :: malOut :: goodOut :: rest) rands =
        (.ok [qGood], 3)) ∧
    (∀ (rest : List GroqOutcome) (count : Nat) (rands : List (List (List Nat))),
      generateWithGroq true count
        (.httpErr 429 :: .httpErr 429 :: malOut :: goodOut :: rest) rands =
        (.ok [qGood], 4)) := by
  refine ⟨fun rest count rands => ?_, fun rest count rands => ?_,
    fun rest count rands => ?_⟩
  · rw [generateWithGroq, if_pos rfl]
    rw [show (32 : Nat) = 31 + 1 from rfl, groqGo_mal count 31 _ _ 0 (by decide)]
    rw [show (31 : Nat) = 30 + 1 from rfl, groqGo_mal count 30 _ _ 1 (by decide)]
    rw [show (30 : Nat) = 29 + 1 from rfl, groqGo_mal_last count 29 _ _ 2 (by decide)]
  · rw [generateWithGroq, if_pos rfl]
    rw [show (32 : Nat) = 31 + 1 from rfl, groqGo_mal count 31 _ _ 0 (by decide)]
    rw [show (31 : Nat) = 30 + 1 from rfl, groqGo_mal count 30 _ _ 1 (by decide)]
    rw [show (30 : Nat) = 29 + 1 from rfl, groqGo_good count 29 _ _ 2]
  · rw [generateWithGroq, if_pos rfl]
    rw [show (32 : Nat) = 31 + 1 from rfl, groqGo_429 count 31 _ _ 0 (by decide)]
    rw [show (31 : Nat) = 30 + 1 from rfl, groqGo_429 count 30 _ _ 1 (by decide)]
    rw [show (30 : Nat) = 29 + 1 from rfl, groqGo_mal_last count 29 _ _ 2 (by decide)]
    simp only []
    rw [if_pos (show 1 < 2 ∧
      errMsgHasJSON (GroqError.sanitize SanitizeError.malformedJSON) = true from
      ⟨by decide, rfl⟩)]
    rw [show (29 : Nat) = 28 + 1 from rfl]
    simp only [List.drop_succ_cons, List.drop_zero]
    rw [groqGo_good count (28 + 1) _ _ (1 + 1)]
